import Mathlib

/-!
Verification of the note-synchronization backend (src/backend/server.js).

The development shallowly embeds the server's core: identity derivation
(`generateUserId`, SHA-256 truncated hex), bearer-token verification
(`verifyToken` over the base64-decoded payload, with JS `split(':')`,
`parseInt`, Date validity and the 24-hour freshness window), and the
file-backed note store (`loadNotes`, `saveNotes`) together with the three
route handlers. Machine words are `Nat` reduced mod 2^32; timestamps are
epoch milliseconds as `Int` (exact for the JS double range that matters,
|t| ≤ 2^53). Base64 transport decoding never fails in Node, so handlers
take the decoded payload directly.
-/

namespace NotesServer

/-- Truncation to a 32-bit word (`% 2^32`). -/
def w32 (n : Nat) : Nat := n % 4294967296

/-- Right rotation of a 32-bit word `x < 2^32`. -/
def rotr32 (n x : Nat) : Nat := w32 ((x >>> n) ||| (x <<< (32 - n)))

/-- SHA-256 round constants. -/
def sha256K : List Nat :=
  [1116352408, 1899447441, 3049323471, 3921009573, 961987163,
   1508970993, 2453635748, 2870763221, 3624381080, 310598401,
   607225278, 1426881987, 1925078388, 2162078206, 2614888103,
   3248222580, 3835390401, 4022224774, 264347078, 604807628,
   770255983, 1249150122, 1555081692, 1996064986, 2554220882,
   2821834349, 2952996808, 3210313671, 3336571891, 3584528711,
   113926993, 338241895, 666307205, 773529912, 1294757372,
   1396182291, 1695183700, 1986661051, 2177026350, 2456956037,
   2730485921, 2820302411, 3259730800, 3345764771, 3516065817,
   3600352804, 4094571909, 275423344, 430227734, 506948616,
   659060556, 883997877, 958139571, 1322822218, 1537002063,
   1747873779, 1955562222, 2024104815, 2227730452, 2361852424,
   2428436474, 2756734187, 3204031479, 3329325298]

/-- SHA-256 initial hash value. -/
def sha256H0 : List Nat :=
  [1779033703, 3144134277, 1013904242, 2773480762,
   1359893119, 2600822924, 528734635, 1541459225]

/-- Big-endian packing of bytes into 32-bit words. -/
def bytesToWords : List Nat → List Nat
  | b0 :: b1 :: b2 :: b3 :: rest =>
    ((b0 <<< 24) ||| (b1 <<< 16) ||| (b2 <<< 8) ||| b3) :: bytesToWords rest
  | _ => []

/-- Message-schedule extension: appends `fuel` further words. -/
def extendWords : Nat → List Nat → List Nat
  | 0, ws => ws
  | n + 1, ws =>
    let i := ws.length
    let w15 := ws.getD (i - 15) 0
    let w2 := ws.getD (i - 2) 0
    let s0 := rotr32 7 w15 ^^^ rotr32 18 w15 ^^^ (w15 >>> 3)
    let s1 := rotr32 17 w2 ^^^ rotr32 19 w2 ^^^ (w2 >>> 10)
    extendWords n (ws ++ [w32 (ws.getD (i - 16) 0 + s0 + ws.getD (i - 7) 0 + s1)])

/-- One SHA-256 compression round on the 8-word state. -/
def compressRound (k wv : Nat) (st : List Nat) : List Nat :=
  match st with
  | [a, b, c, d, e, f, g, h] =>
    let s1 := rotr32 6 e ^^^ rotr32 11 e ^^^ rotr32 25 e
    let ch := (e &&& f) ^^^ ((4294967295 ^^^ e) &&& g)
    let t1 := w32 (h + s1 + ch + k + wv)
    let s0 := rotr32 2 a ^^^ rotr32 13 a ^^^ rotr32 22 a
    let maj := (a &&& b) ^^^ (a &&& c) ^^^ (b &&& c)
    let t2 := w32 (s0 + maj)
    [w32 (t1 + t2), a, b, c, w32 (d + t1), e, f, g]
  | other => other

/-- Process one 64-byte block against the running hash. -/
def processBlock (hs : List Nat) (block : List Nat) : List Nat :=
  let ws := extendWords 48 (bytesToWords block)
  let st := (sha256K.zip ws).foldl (fun s kw => compressRound kw.1 kw.2 s) hs
  List.zipWith (fun a b => w32 (a + b)) hs st

/-- Split a byte list into 64-byte chunks; `fuel` bounds the recursion
(structural, so that concrete evaluation reduces in the kernel). -/
def chunksAux : Nat → List Nat → List (List Nat)
  | 0, _ => []
  | _ + 1, [] => []
  | fuel + 1, b :: bs => ((b :: bs).take 64) :: chunksAux fuel ((b :: bs).drop 64)

def chunks64 (bs : List Nat) : List (List Nat) := chunksAux bs.length bs

/-- Big-endian 8-byte encoding of the bit length. -/
def beBytes8 (n : Nat) : List Nat :=
  [(n >>> 56) &&& 255, (n >>> 48) &&& 255, (n >>> 40) &&& 255, (n >>> 32) &&& 255,
   (n >>> 24) &&& 255, (n >>> 16) &&& 255, (n >>> 8) &&& 255, n &&& 255]

/-- SHA-256 padding: `0x80`, zeros to 56 mod 64, then the 64-bit bit length. -/
def padMessage (msg : List Nat) : List Nat :=
  let zeros := (64 + 56 - ((msg.length + 1) % 64)) % 64
  msg ++ [128] ++ List.replicate zeros 0 ++ beBytes8 (8 * msg.length)

/-- SHA-256 of a byte string, as the 8-word final state. -/
def sha256Words (msg : List Nat) : List Nat :=
  (chunks64 (padMessage msg)).foldl processBlock sha256H0

/-- Big-endian bytes of a 32-bit word. -/
def wordToBytes (wv : Nat) : List Nat :=
  [(wv >>> 24) &&& 255, (wv >>> 16) &&& 255, (wv >>> 8) &&& 255, wv &&& 255]

/-- Lowercase hex digit for `n < 16`. -/
def hexDigitChar (n : Nat) : Char :=
  if n < 10 then Char.ofNat (48 + n) else Char.ofNat (87 + n)

/-- Two lowercase hex digits of a byte. -/
def byteToHex (b : Nat) : List Char := [hexDigitChar (b / 16), hexDigitChar (b % 16)]

/-- UTF-8 encoding of one character (Node's default encoding for
`crypto.createHash(...).update(string)`). -/
def utf8EncodeChar (c : Char) : List Nat :=
  let n := c.toNat
  if n < 128 then [n]
  else if n < 2048 then [192 ||| (n >>> 6), 128 ||| (n &&& 63)]
  else if n < 65536 then
    [224 ||| (n >>> 12), 128 ||| ((n >>> 6) &&& 63), 128 ||| (n &&& 63)]
  else
    [240 ||| (n >>> 18), 128 ||| ((n >>> 12) &&& 63), 128 ||| ((n >>> 6) &&& 63),
     128 ||| (n &&& 63)]

def utf8Bytes (s : String) : List Nat := (s.data.map utf8EncodeChar).flatten

/-- Lowercase hex SHA-256 digest of a string, as a character list. -/
def sha256HexChars (s : String) : List Char :=
  (((sha256Words (utf8Bytes s)).map wordToBytes).flatten.map byteToHex).flatten

/-- Function `generateUserId` from server.js: the sha256 hex digest of the password,
truncated to its first 16 characters. -/
def generateUserId (password : String) : String :=
  String.mk ((sha256HexChars password).take 16)

/-- A lowercase hexadecimal digit character. -/
def isHexDigit (c : Char) : Bool :=
  decide ((48 ≤ c.toNat ∧ c.toNat ≤ 57) ∨ (97 ≤ c.toNat ∧ c.toNat ≤ 102))

/-! ## Token verification (`verifyToken`) -/

/-- JS `decoded.split(':')` on the character list, right to left. -/
def splitColonChars : List Char → List (List Char)
  | [] => [[]]
  | c :: rest =>
    match splitColonChars rest with
    | [] => [[c]]
    | p :: ps => if c = ':' then [] :: p :: ps else (c :: p) :: ps

/-- JS `decoded.split(':')`. -/
def jsSplitColon (s : String) : List String :=
  (splitColonChars s.data).map String.mk

/-- Whitespace skipped by JS `parseInt`: ECMAScript WhiteSpace (TAB, LF, VT,
FF, CR, space, NBSP, ZWNBSP and every Space_Separator code point — U+1680,
U+2000 through U+200A, U+202F, U+205F, U+3000) together with the
LineTerminator code points U+2028 and U+2029. -/
def isJsWhitespace (c : Char) : Bool :=
  c.toNat = 9 || c.toNat = 10 || c.toNat = 11 || c.toNat = 12 || c.toNat = 13 ||
  c.toNat = 32 || c.toNat = 160 || c.toNat = 5760 ||
  (8192 ≤ c.toNat && c.toNat ≤ 8202) ||
  c.toNat = 8232 || c.toNat = 8233 || c.toNat = 8239 || c.toNat = 8287 ||
  c.toNat = 12288 || c.toNat = 65279

/-- Value of a digit character under the given radix, if valid. -/
def digitVal (radix : Nat) (c : Char) : Option Nat :=
  let v : Option Nat :=
    if 48 ≤ c.toNat ∧ c.toNat ≤ 57 then some (c.toNat - 48)
    else if 97 ≤ c.toNat ∧ c.toNat ≤ 122 then some (c.toNat - 87)
    else if 65 ≤ c.toNat ∧ c.toNat ≤ 90 then some (c.toNat - 55)
    else none
  match v with
  | some d => if d < radix then some d else none
  | none => none

/-- Longest digit prefix under `radix`: accumulated value and digit count. -/
def takeDigits (radix : Nat) : List Char → Nat → Nat → Nat × Nat
  | [], acc, cnt => (acc, cnt)
  | c :: cs, acc, cnt =>
    match digitVal radix c with
    | some d => takeDigits radix cs (acc * radix + d) (cnt + 1)
    | none => (acc, cnt)

/-- JS `parseInt(s)` with no radix argument: skip whitespace, optional sign,
optional `0x` prefix (radix 16), longest digit prefix; `none` is `NaN`.
Exact for results within the double-exact range (all inputs used here). -/
def parseIntJS (s : String) : Option Int :=
  let cs := s.data.dropWhile isJsWhitespace
  let sc : Int × List Char :=
    match cs with
    | '-' :: rest => (-1, rest)
    | '+' :: rest => (1, rest)
    | _ => (1, cs)
  let rc : Nat × List Char :=
    match sc.2 with
    | '0' :: 'x' :: rest => (16, rest)
    | '0' :: 'X' :: rest => (16, rest)
    | _ => (10, sc.2)
  let vc := takeDigits rc.1 rc.2 0 0
  if vc.2 = 0 then none else some (sc.1 * Int.ofNat vc.1)

/-- Twenty-four hours in milliseconds (`24 * 60 * 60 * 1000`). -/
def dayMs : Int := 86400000

/-- Largest epoch-millisecond magnitude for which JS `new Date(t)` is a
valid date; beyond it the Date is Invalid and every comparison with it
(via `NaN`) is false. -/
def maxDateMs : Nat := 8640000000000000

/-- Outcome of the body of `verifyToken`'s try block, distinguishing the
two inner throw sites (before the catch-all rewraps them). -/
inductive VerifyResult where
  | ok (userId : String)
  | errMalformedToken
  | errExpired
deriving DecidableEq, Repr

/-- The try-block of `verifyToken` on the base64-decoded token payload:
split on `:`, JS-destructure the first two parts, reject if either is
falsy, then the 24-hour freshness check via `parseInt` and Date
subtraction (`NaN` comparisons are false, so unparseable or out-of-range
issue instants pass). -/
def verifyDecoded (now : Int) (decoded : String) : VerifyResult :=
  let parts := jsSplitColon decoded
  let password := parts.getD 0 ""
  let tsStr := parts.getD 1 ""
  if password = "" ∨ tsStr = "" then .errMalformedToken
  else
    match parseIntJS tsStr with
    | none => .ok (generateUserId password)
    | some t =>
      if t.natAbs > maxDateMs then .ok (generateUserId password)
      else if now - t > dayMs then .errExpired
      else .ok (generateUserId password)

/-- The authorization header as the core sees it: either absent / not
`Bearer`-prefixed, or a bearer token given by its base64-decoded payload
(Node's base64 decode never fails). -/
inductive AuthHeader where
  | missing
  | bearer (decodedPayload : String)
deriving DecidableEq, Repr

/-- Observable outcome of `verifyToken`: a userId, or the thrown message. -/
inductive AuthOutcome where
  | ok (userId : String)
  | err (message : String)
deriving DecidableEq, Repr

/-- Function `verifyToken` from server.js: header-shape check outside the try block;
inside it, any failure is caught and rethrown as `Invalid token`. -/
def verifyToken (now : Int) (h : AuthHeader) : AuthOutcome :=
  match h with
  | .missing => .err "Invalid authorization header"
  | .bearer decoded =>
    match verifyDecoded now decoded with
    | .ok u => .ok u
    | .errMalformedToken => .err "Invalid token"
    | .errExpired => .err "Invalid token"

/-- Infix test on character lists, scanning suffixes. -/
def isInfixList (needle : List Char) : List Char → Bool
  | [] => needle.isEmpty
  | c :: rest => needle.isPrefixOf (c :: rest) || isInfixList needle rest

/-- JS `hay.includes(needle)`. -/
def strIncludes (hay needle : String) : Bool := isInfixList needle.data hay.data

/-- The route handlers' catch clause: 401 when the error message contains
`Invalid` or `expired`, else 500. -/
def errorStatus (msg : String) : Nat :=
  if strIncludes msg "Invalid" || strIncludes msg "expired" then 401 else 500

/-! ## Note store (`loadNotes` / `saveNotes`) and route handlers

Stored timestamps are the server's own `new Date().toISOString()` stamps;
ISO-8601 rendering is order-isomorphic to epoch milliseconds, so records
carry the instant as an `Int`. A client-supplied `timestamp` field is
either absent/falsy (`none`), a truthy value parsing to a valid Date, or
a truthy value whose `new Date(...)` is Invalid (every comparison false).
-/

abbrev Note := String

/-- A per-user record `{notes, timestamp}`. -/
structure UserRecord where
  notes : List Note
  timestamp : Int
deriving DecidableEq, Repr

/-- The persisted mapping `userId → UserRecord`, in JSON-object key order. -/
abbrev StoreMap := List (String × UserRecord)

/-- The backing file: `none` when absent (ENOENT). -/
abbrev FileState := Option StoreMap

/-- JS object lookup `allNotes[userId]`. -/
def lookupKey : StoreMap → String → Option UserRecord
  | [], _ => none
  | (k, v) :: rest, u => if k = u then some v else lookupKey rest u

/-- JS object update `allNotes[userId] = record`: replace in place if the
key exists, otherwise append. -/
def setKey : StoreMap → String → UserRecord → StoreMap
  | [], u, r => [(u, r)]
  | (k, v) :: rest, u, r => if k = u then (u, r) :: rest else (k, v) :: setKey rest u r

/-- Lookup through the optional backing file. -/
def fileLookup (file : FileState) (u : String) : Option UserRecord :=
  match file with
  | none => none
  | some m => lookupKey m u

/-- Function `loadNotes` from server.js: read the file (ENOENT gives a fresh empty
record stamped `now`), return the user's entry or a fresh empty record. -/
def loadNotes (now : Int) (file : FileState) (userId : String) : UserRecord :=
  match file with
  | none => { notes := [], timestamp := now }
  | some m => (lookupKey m userId).getD { notes := [], timestamp := now }

/-- A client timestamp field value, as compared by `new Date(ts)`. -/
inductive TsVal where
  | valid (ms : Int)
  | invalid
deriving DecidableEq, Repr

/-- The client payload passed to `saveNotes` (`{notes, timestamp?}`). -/
structure ClientData where
  notes : List Note
  timestamp : Option TsVal
deriving DecidableEq, Repr

/-- Function `saveNotes` from server.js: read the whole mapping (ENOENT means
empty), replace the user's entry with the client data spread under a
server-stamped `timestamp: now` (overriding any client timestamp), and
rewrite the whole file. Returns the stored record. -/
def saveNotes (now : Int) (file : FileState) (userId : String)
    (userData : ClientData) : FileState × UserRecord :=
  let allNotes := file.getD []
  let record : UserRecord := { notes := userData.notes, timestamp := now }
  (some (setKey allNotes userId record), record)

/-- The request `notes` field: an array, or any non-array value. -/
inductive NotesField where
  | arr (notes : List Note)
  | nonArray
deriving DecidableEq, Repr

/-- A handler's HTTP outcome: 200 with a record, or an error status. -/
inductive HttpResponse where
  | ok (record : UserRecord)
  | err (status : Nat) (message : String)
deriving DecidableEq, Repr

/-- Handler for `POST /sync-notes`: verify the token (caught errors classified by
message), require `notes` to be an array, then last-write-wins: a truthy
client timestamp comparing `<=` the existing record's timestamp makes the
write a no-op; otherwise `saveNotes` runs. -/
def syncHandler (now : Int) (file : FileState) (auth : AuthHeader)
    (notes : NotesField) (ts : Option TsVal) : FileState × HttpResponse :=
  match verifyToken now auth with
  | .err msg => (file, .err (errorStatus msg) msg)
  | .ok userId =>
    match notes with
    | .nonArray => (file, .err 400 "Notes must be an array")
    | .arr ns =>
      let existingData := loadNotes now file userId
      match ts with
      | some (.valid t) =>
        if t ≤ existingData.timestamp then (file, .ok existingData)
        else
          let r := saveNotes now file userId { notes := ns, timestamp := ts }
          (r.1, .ok r.2)
      | some .invalid =>
        let r := saveNotes now file userId { notes := ns, timestamp := ts }
        (r.1, .ok r.2)
      | none =>
        let r := saveNotes now file userId { notes := ns, timestamp := ts }
        (r.1, .ok r.2)

/-- Handler for `GET /notes`: verify the token and return `loadNotes`; no write. -/
def getNotesHandler (now : Int) (file : FileState) (auth : AuthHeader) :
    FileState × HttpResponse :=
  match verifyToken now auth with
  | .err msg => (file, .err (errorStatus msg) msg)
  | .ok userId => (file, .ok (loadNotes now file userId))

/-- Handler for `POST /notes`: verify the token, require an array, and save
unconditionally (no client timestamp field is read). -/
def saveNotesHandler (now : Int) (file : FileState) (auth : AuthHeader)
    (notes : NotesField) : FileState × HttpResponse :=
  match verifyToken now auth with
  | .err msg => (file, .err (errorStatus msg) msg)
  | .ok userId =>
    match notes with
    | .nonArray => (file, .err 400 "Notes must be an array")
    | .arr ns =>
      let r := saveNotes now file userId { notes := ns, timestamp := none }
      (r.1, .ok r.2)

/-! ## Sanity checks of the embedding on concrete inputs -/

example : generateUserId "p" = "148de9c5a7a44d19" := by decide
example : jsSplitColon "a:b:c" = ["a", "b", "c"] := by decide
example : jsSplitColon "" = [""] := by decide
example : jsSplitColon "a:" = ["a", ""] := by decide
example : parseIntJS "1700000000000" = some 1700000000000 := by decide
example : parseIntJS "12abc" = some 12 := by decide
example : parseIntJS "x" = none := by decide
example : parseIntJS " -42" = some (-42) := by decide
example : parseIntJS "" = none := by decide
example : parseIntJS "\u20000" = some 0 := by decide
example : parseIntJS "\u1680\u2028\u205f\u3000-7" = some (-7) := by decide
example : errorStatus "Invalid token" = 401 := by decide
example : errorStatus "Invalid authorization header" = 401 := by decide
example : errorStatus "boom" = 500 := by decide

/-! ## Helper lemmas -/

theorem lookupKey_setKey_ne (m : StoreMap) (a b : String) (v : UserRecord)
    (h : b ≠ a) : lookupKey (setKey m a v) b = lookupKey m b := by
  induction m with
  | nil => simp [setKey, lookupKey, Ne.symm h]
  | cons p rest ih =>
    obtain ⟨k, w⟩ := p
    by_cases hk : k = a
    · subst hk
      simp [setKey, lookupKey, Ne.symm h]
    · simp [setKey, lookupKey, hk, ih]

theorem fileLookup_getD (file : FileState) (b : String) :
    fileLookup file b = lookupKey (file.getD []) b := by
  cases file <;> rfl

theorem fileLookup_saveNotes_ne (now : Int) (file : FileState) (a b : String)
    (ud : ClientData) (h : b ≠ a) :
    fileLookup (saveNotes now file a ud).1 b = fileLookup file b := by
  rw [fileLookup_getD file b]
  exact lookupKey_setKey_ne _ a b _ h

theorem compressRound_length (k wv : Nat) (st : List Nat) :
    (compressRound k wv st).length = st.length := by
  unfold compressRound
  split <;> simp

theorem foldl_compressRound_length (l : List (Nat × Nat)) (st : List Nat) :
    (l.foldl (fun s kw => compressRound kw.1 kw.2 s) st).length = st.length := by
  induction l generalizing st with
  | nil => rfl
  | cons p rest ih => rw [List.foldl_cons, ih, compressRound_length]

theorem processBlock_length (hs block : List Nat) (h : hs.length = 8) :
    (processBlock hs block).length = 8 := by
  unfold processBlock
  rw [List.length_zipWith, foldl_compressRound_length, h]
  simp

theorem foldl_processBlock_length (blocks : List (List Nat)) (hs : List Nat)
    (h : hs.length = 8) : (blocks.foldl processBlock hs).length = 8 := by
  induction blocks generalizing hs with
  | nil => exact h
  | cons blk rest ih => exact ih _ (processBlock_length _ _ h)

theorem sha256Words_length (msg : List Nat) : (sha256Words msg).length = 8 :=
  foldl_processBlock_length _ _ rfl

theorem flatten_map_const_length {α β : Type} (f : α → List β) (k : Nat)
    (hf : ∀ x, (f x).length = k) (l : List α) :
    ((l.map f).flatten).length = k * l.length := by
  induction l with
  | nil => simp
  | cons x rest ih =>
    simp only [List.map_cons, List.flatten_cons, List.length_append, hf, ih,
      List.length_cons]
    ring

theorem sha256HexChars_length (s : String) : (sha256HexChars s).length = 64 := by
  unfold sha256HexChars
  rw [flatten_map_const_length byteToHex 2 (fun _ => rfl),
    flatten_map_const_length wordToBytes 4 (fun _ => rfl), sha256Words_length]

theorem generateUserId_length (s : String) : (generateUserId s).length = 16 := by
  have h : (generateUserId s).length = ((sha256HexChars s).take 16).length := rfl
  rw [h, List.length_take, sha256HexChars_length]
  decide

theorem byteToHex_hex (b : Nat) (hb : b < 256) :
    ∀ c ∈ byteToHex b, isHexDigit c = true := by
  have h : ∀ n < 16, isHexDigit (hexDigitChar n) = true := by decide
  intro c hc
  simp only [byteToHex, List.mem_cons, List.not_mem_nil, or_false] at hc
  rcases hc with rfl | rfl
  · exact h _ (by omega)
  · exact h _ (by omega)

theorem wordToBytes_lt (wv : Nat) : ∀ b ∈ wordToBytes wv, b < 256 := by
  intro b hb
  simp only [wordToBytes, List.mem_cons, List.not_mem_nil, or_false] at hb
  rcases hb with rfl | rfl | rfl | rfl <;> exact Nat.lt_succ_of_le Nat.and_le_right

theorem sha256HexChars_hex (s : String) :
    ∀ c ∈ sha256HexChars s, isHexDigit c = true := by
  intro c hc
  unfold sha256HexChars at hc
  rw [List.mem_flatten] at hc
  obtain ⟨l2, hl2, hc2⟩ := hc
  rw [List.mem_map] at hl2
  obtain ⟨b, hb, rfl⟩ := hl2
  rw [List.mem_flatten] at hb
  obtain ⟨l3, hl3, hb3⟩ := hb
  rw [List.mem_map] at hl3
  obtain ⟨wd, hwd, rfl⟩ := hl3
  exact byteToHex_hex b (wordToBytes_lt wd b hb3) c hc2

theorem verifyDecoded_ok_userId (now : Int) (decoded u pw ts : String)
    (hsplit : jsSplitColon decoded = [pw, ts])
    (h : verifyDecoded now decoded = .ok u) :
    u = generateUserId pw := by
  simp only [verifyDecoded, hsplit, List.getD_cons_zero, List.getD_cons_succ] at h
  split at h
  · simp_all
  · split at h
    · simp_all
    · split at h
      · simp_all
      · split at h <;> simp_all

theorem verifyToken_ok_userId (now : Int) (decoded u pw ts : String)
    (hsplit : jsSplitColon decoded = [pw, ts])
    (h : verifyToken now (.bearer decoded) = .ok u) :
    u = generateUserId pw := by
  simp only [verifyToken] at h
  cases hv : verifyDecoded now decoded with
  | ok v =>
    rw [hv] at h
    simp only [AuthOutcome.ok.injEq] at h
    rw [← h]
    exact verifyDecoded_ok_userId now decoded v pw ts hsplit hv
  | errMalformedToken => rw [hv] at h; exact absurd h (by simp)
  | errExpired => rw [hv] at h; exact absurd h (by simp)

/-! ## Claims -/

/-- C1: for every stored record with timestamp `T0` and every sync request
for the same userId whose candidate timestamp is present and not strictly
greater than `T0`, the write is a no-op: the persisted mapping is left
unchanged and the pre-existing record is returned. -/
theorem C1_stale_sync_is_noop (now : Int) (m : StoreMap) (userId : String)
    (stored : UserRecord) (ns : List Note) (t1 : Int) (auth : AuthHeader)
    (hauth : verifyToken now auth = .ok userId)
    (hstored : lookupKey m userId = some stored)
    (hle : t1 ≤ stored.timestamp) :
    syncHandler now (some m) auth (.arr ns) (some (.valid t1))
      = (some m, .ok stored) := by
  simp only [syncHandler, hauth, loadNotes, hstored, Option.getD_some]
  rw [if_pos hle]

theorem C1_stale_sync_is_noop_witness :
    syncHandler 1 (some [(generateUserId "p", ⟨["a"], 5⟩)]) (.bearer "p:1")
        (.arr ["b"]) (some (.valid 3))
      = (some [(generateUserId "p", ⟨["a"], 5⟩)], .ok ⟨["a"], 5⟩) :=
  C1_stale_sync_is_noop 1 [(generateUserId "p", ⟨["a"], 5⟩)] (generateUserId "p")
    ⟨["a"], 5⟩ ["b"] 3 (.bearer "p:1") (by decide) (by decide) (by decide)

/-- C2: every write (a sync whose candidate timestamp is strictly newer
than the loaded record's, a sync with no candidate timestamp, and every
unconditional save) replaces the entry for userId wholesale with
`{notes, timestamp := now}` — the server's own write time, regardless of
the client-supplied timestamp — and rewrites the full mapping to storage. -/
theorem C2_write_replaces_and_server_stamps (now : Int) (file : FileState)
    (auth : AuthHeader) (userId : String) (ns : List Note) (t1 : Int)
    (hauth : verifyToken now auth = .ok userId)
    (hnewer : (loadNotes now file userId).timestamp < t1) :
    syncHandler now file auth (.arr ns) (some (.valid t1))
      = (some (setKey (file.getD []) userId ⟨ns, now⟩), .ok ⟨ns, now⟩) ∧
    syncHandler now file auth (.arr ns) none
      = (some (setKey (file.getD []) userId ⟨ns, now⟩), .ok ⟨ns, now⟩) ∧
    saveNotesHandler now file auth (.arr ns)
      = (some (setKey (file.getD []) userId ⟨ns, now⟩), .ok ⟨ns, now⟩) := by
  refine ⟨?_, ?_, ?_⟩
  · simp only [syncHandler, hauth, saveNotes]
    rw [if_neg (not_le.mpr hnewer)]
  · simp only [syncHandler, hauth, saveNotes]
  · simp only [saveNotesHandler, hauth, saveNotes]

theorem C2_write_replaces_and_server_stamps_witness :
    syncHandler 1 (some [(generateUserId "p", ⟨["a"], 5⟩)]) (.bearer "p:1")
        (.arr ["b"]) (some (.valid 9))
      = (some [(generateUserId "p", ⟨["b"], 1⟩)], .ok ⟨["b"], 1⟩) ∧
    syncHandler 1 (some [(generateUserId "p", ⟨["a"], 5⟩)]) (.bearer "p:1")
        (.arr ["b"]) none
      = (some [(generateUserId "p", ⟨["b"], 1⟩)], .ok ⟨["b"], 1⟩) ∧
    saveNotesHandler 1 (some [(generateUserId "p", ⟨["a"], 5⟩)]) (.bearer "p:1")
        (.arr ["b"])
      = (some [(generateUserId "p", ⟨["b"], 1⟩)], .ok ⟨["b"], 1⟩) :=
  C2_write_replaces_and_server_stamps 1 (some [(generateUserId "p", ⟨["a"], 5⟩)])
    (.bearer "p:1") (generateUserId "p") ["b"] 9 (by decide) (by decide)

/-- C6: for every sync or save request with a valid token whose notes
payload is not an array, the request fails with a 400 validation error and
the persisted mapping is returned unchanged (no storage write occurs). -/
theorem C6_nonarray_rejected_before_storage (now : Int) (file : FileState)
    (auth : AuthHeader) (userId : String)
    (hauth : verifyToken now auth = .ok userId) :
    (∀ ts, syncHandler now file auth .nonArray ts
        = (file, .err 400 "Notes must be an array")) ∧
    saveNotesHandler now file auth .nonArray
      = (file, .err 400 "Notes must be an array") := by
  constructor
  · intro ts
    simp only [syncHandler, hauth]
  · simp only [saveNotesHandler, hauth]

theorem C6_nonarray_rejected_before_storage_witness :
    syncHandler 1 (some []) (.bearer "p:1") .nonArray none
      = (some [], .err 400 "Notes must be an array") ∧
    saveNotesHandler 1 (some []) (.bearer "p:1") .nonArray
      = (some [], .err 400 "Notes must be an array") :=
  ⟨(C6_nonarray_rejected_before_storage 1 (some []) (.bearer "p:1")
      (generateUserId "p") (by decide)).1 none,
   (C6_nonarray_rejected_before_storage 1 (some []) (.bearer "p:1")
      (generateUserId "p") (by decide)).2⟩

/-- C7: for every userId with no persisted entry — including when the
backing file is absent, which is treated as an empty mapping rather than
an error — a read returns `{notes := [], timestamp := now}` and the get
handler leaves the persisted state untouched. -/
theorem C7_cold_read_fresh_record (now : Int) (file : FileState)
    (auth : AuthHeader) (userId : String)
    (hauth : verifyToken now auth = .ok userId)
    (habsent : fileLookup file userId = none) :
    loadNotes now file userId = { notes := [], timestamp := now } ∧
    getNotesHandler now file auth
      = (file, .ok { notes := [], timestamp := now }) := by
  have hl : loadNotes now file userId = { notes := [], timestamp := now } := by
    cases file with
    | none => rfl
    | some m =>
      simp only [fileLookup] at habsent
      simp only [loadNotes, habsent, Option.getD_none]
  refine ⟨hl, ?_⟩
  simp only [getNotesHandler, hauth, hl]

theorem C7_cold_read_fresh_record_witness :
    loadNotes 7 none (generateUserId "p") = { notes := [], timestamp := 7 } ∧
    getNotesHandler 7 none (.bearer "p:1")
      = (none, .ok { notes := [], timestamp := 7 }) :=
  C7_cold_read_fresh_record 7 none (.bearer "p:1") (generateUserId "p")
    (by decide) (by decide)

/-- C8: for distinct user identifiers, a write for one (via the store
primitive `saveNotes`, or through either writing handler under a token
resolving to it) leaves the record stored under the other unchanged. -/
theorem C8_write_isolated_across_users (now : Int) (file : FileState)
    (a b : String) (ud : ClientData) (hne : b ≠ a) :
    fileLookup (saveNotes now file a ud).1 b = fileLookup file b ∧
    (∀ auth notes ts, verifyToken now auth = .ok a →
      fileLookup (syncHandler now file auth notes ts).1 b = fileLookup file b) ∧
    (∀ auth notes, verifyToken now auth = .ok a →
      fileLookup (saveNotesHandler now file auth notes).1 b = fileLookup file b) := by
  refine ⟨fileLookup_saveNotes_ne now file a b ud hne, ?_, ?_⟩
  · intro auth notes ts hauth
    cases notes with
    | nonArray => simp only [syncHandler, hauth]
    | arr ns =>
      cases ts with
      | none =>
        simp only [syncHandler, hauth]
        exact fileLookup_saveNotes_ne now file a b _ hne
      | some tv =>
        cases tv with
        | invalid =>
          simp only [syncHandler, hauth]
          exact fileLookup_saveNotes_ne now file a b _ hne
        | valid t =>
          simp only [syncHandler, hauth]
          by_cases hc : t ≤ (loadNotes now file a).timestamp
          · rw [if_pos hc]
          · rw [if_neg hc]
            exact fileLookup_saveNotes_ne now file a b _ hne
  · intro auth notes hauth
    cases notes with
    | nonArray => simp only [saveNotesHandler, hauth]
    | arr ns =>
      simp only [saveNotesHandler, hauth]
      exact fileLookup_saveNotes_ne now file a b _ hne

theorem C8_write_isolated_across_users_witness :
    fileLookup (saveNotes 1 (some [("bob", ⟨["x"], 2⟩)]) "alice" ⟨["y"], none⟩).1 "bob"
      = fileLookup (some [("bob", ⟨["x"], 2⟩)]) "bob" ∧
    fileLookup (syncHandler 1 (some [("bob", ⟨["x"], 2⟩)]) (.bearer "p:1")
        (.arr ["y"]) none).1 "bob"
      = fileLookup (some [("bob", ⟨["x"], 2⟩)]) "bob" := by
  have h := C8_write_isolated_across_users 1 (some [("bob", ⟨["x"], 2⟩)])
    "alice" "bob" ⟨["y"], none⟩ (by decide)
  have h2 := C8_write_isolated_across_users 1 (some [("bob", ⟨["x"], 2⟩)])
    (generateUserId "p") "bob" ⟨["y"], none⟩ (by decide)
  exact ⟨h.1, h2.2.1 (.bearer "p:1") (.arr ["y"]) none (by decide)⟩

theorem verifyDecoded_wellformed (now t : Int) (decoded pw ts : String)
    (hsplit : jsSplitColon decoded = [pw, ts])
    (hpw : pw ≠ "") (hts : ts ≠ "")
    (hparse : parseIntJS ts = some t)
    (hrange : t.natAbs ≤ maxDateMs) :
    verifyDecoded now decoded =
      if now - t > dayMs then .errExpired else .ok (generateUserId pw) := by
  simp only [verifyDecoded, hsplit, List.getD_cons_zero, List.getD_cons_succ, hparse]
  rw [if_neg (by simp [hpw, hts]), if_neg (Nat.not_lt.mpr hrange)]

/-- C5: the 24-hour freshness window is strict: a well-formed token whose
age `now - t` exceeds 24 hours is rejected, while one whose age is at most
24 hours is accepted. -/
theorem C5_freshness_window_strict (now t : Int) (decoded pw ts : String)
    (hsplit : jsSplitColon decoded = [pw, ts])
    (hpw : pw ≠ "") (hts : ts ≠ "")
    (hparse : parseIntJS ts = some t)
    (hrange : t.natAbs ≤ maxDateMs) :
    (now - t > dayMs → verifyToken now (.bearer decoded) = .err "Invalid token") ∧
    (now - t ≤ dayMs → verifyToken now (.bearer decoded) = .ok (generateUserId pw)) := by
  have hv := verifyDecoded_wellformed now t decoded pw ts hsplit hpw hts hparse hrange
  constructor
  · intro hgt
    rw [if_pos hgt] at hv
    simp only [verifyToken, hv]
  · intro hle
    rw [if_neg (not_lt.mpr hle)] at hv
    simp only [verifyToken, hv]

theorem C5_freshness_window_strict_witness :
    verifyToken 86400001 (.bearer "p:0") = .err "Invalid token" ∧
    verifyToken 86400000 (.bearer "p:0") = .ok (generateUserId "p") :=
  ⟨(C5_freshness_window_strict 86400001 0 "p:0" "p" "0" (by decide) (by decide)
      (by decide) (by decide) (by decide)).1 (by decide),
   (C5_freshness_window_strict 86400000 0 "p:0" "p" "0" (by decide) (by decide)
      (by decide) (by decide) (by decide)).2 (by decide)⟩

/-- C4 counterexample: a token whose issue instant (1) is more than 24 hours
before now (172800001) is rejected, but the 401 response's message is
`Invalid token` — not the expiry message, and not containing `expired` —
because verifyToken's catch-all rewraps the inner expired error. -/
theorem C4_counterexample :
    verifyDecoded 172800001 "p:1" = .errExpired ∧
    verifyToken 172800001 (.bearer "p:1") = .err "Invalid token" ∧
    syncHandler 172800001 none (.bearer "p:1") (.arr []) none
      = (none, .err 401 "Invalid token") ∧
    strIncludes "Invalid token" "expired" = false := by decide

/-- C4 (amended): a token whose issue instant is more than 24 hours before
now fails verification — the inner error is the expired one — but the
catch-all in verifyToken rethrows it as `Invalid token`, and the handlers
surface a 401 carrying that generic message (401 because the message
contains `Invalid`), not an expiry-specific message. -/
theorem C4_expired_token_401_generic_message (now t : Int) (decoded pw ts : String)
    (hsplit : jsSplitColon decoded = [pw, ts])
    (hpw : pw ≠ "") (hts : ts ≠ "")
    (hparse : parseIntJS ts = some t)
    (hrange : t.natAbs ≤ maxDateMs)
    (hexp : now - t > dayMs) :
    verifyDecoded now decoded = .errExpired ∧
    verifyToken now (.bearer decoded) = .err "Invalid token" ∧
    errorStatus "Invalid token" = 401 ∧
    (∀ file ns tsv, syncHandler now file (.bearer decoded) (.arr ns) tsv
      = (file, .err 401 "Invalid token")) := by
  have hv := verifyDecoded_wellformed now t decoded pw ts hsplit hpw hts hparse hrange
  rw [if_pos hexp] at hv
  have hvt : verifyToken now (.bearer decoded) = .err "Invalid token" := by
    simp only [verifyToken, hv]
  refine ⟨hv, hvt, by decide, ?_⟩
  intro file ns tsv
  simp only [syncHandler, hvt]
  rfl

theorem C4_expired_token_401_generic_message_witness :
    verifyDecoded 172800000 "q:1" = .errExpired ∧
    verifyToken 172800000 (.bearer "q:1") = .err "Invalid token" ∧
    errorStatus "Invalid token" = 401 ∧
    (∀ file ns tsv, syncHandler 172800000 file (.bearer "q:1") (.arr ns) tsv
      = (file, .err 401 "Invalid token")) :=
  C4_expired_token_401_generic_message 172800000 1 "q:1" "q" "1" (by decide)
    (by decide) (by decide) (by decide) (by decide) (by decide)

/-- C3 counterexample: the decoded payload `a:1:c` splits into three
colon-separated parts — not exactly two — yet token decoding succeeds
(at now = 1) instead of failing as malformed. -/
theorem C3_counterexample :
    (jsSplitColon "a:1:c").length = 3 ∧
    verifyDecoded 1 "a:1:c" = .ok (generateUserId "a") ∧
    verifyToken 1 (.bearer "a:1:c") = .ok (generateUserId "a") := by decide

/-- C3 (amended): decoding fails with the malformed-token error exactly when
the first colon-separated part of the decoded payload is empty or the
second part is missing or empty; parts beyond the second are ignored, so a
payload with more than two parts whose first two are non-empty is not
rejected as malformed. -/
theorem C3_malformed_iff_first_two_parts (now : Int) (decoded : String) :
    verifyDecoded now decoded = .errMalformedToken ↔
      ((jsSplitColon decoded).getD 0 "" = "" ∨
        (jsSplitColon decoded).getD 1 "" = "") := by
  constructor
  · intro h
    by_contra hno
    simp only [verifyDecoded] at h
    rw [if_neg hno] at h
    cases hp : parseIntJS ((jsSplitColon decoded).getD 1 "") with
    | none => simp only [hp] at h; exact absurd h (by simp)
    | some t =>
      simp only [hp] at h
      by_cases hr : t.natAbs > maxDateMs
      · rw [if_pos hr] at h; exact absurd h (by simp)
      · rw [if_neg hr] at h
        by_cases he : now - t > dayMs
        · rw [if_pos he] at h; exact absurd h (by simp)
        · rw [if_neg he] at h; exact absurd h (by simp)
  · intro hc
    simp only [verifyDecoded]
    rw [if_pos hc]

/-- C9: identity resolution is deterministic: any two tokens whose decoded
payloads carry the same secret and pass verification (at any times, with
any issue instants) resolve to the same userId, namely `generateUserId` of
the secret — a 16-character string of lowercase hex digits. -/
theorem C9_identity_deterministic (now1 now2 : Int) (d1 d2 s ts1 ts2 u1 u2 : String)
    (h1 : jsSplitColon d1 = [s, ts1]) (h2 : jsSplitColon d2 = [s, ts2])
    (hv1 : verifyToken now1 (.bearer d1) = .ok u1)
    (hv2 : verifyToken now2 (.bearer d2) = .ok u2) :
    u1 = u2 ∧ u1 = generateUserId s ∧ u1.length = 16 ∧
      ∀ c ∈ u1.data, isHexDigit c = true := by
  have e1 := verifyToken_ok_userId now1 d1 u1 s ts1 h1 hv1
  have e2 := verifyToken_ok_userId now2 d2 u2 s ts2 h2 hv2
  subst e1
  refine ⟨e2.symm, rfl, generateUserId_length s, ?_⟩
  intro c hc
  exact sha256HexChars_hex s c (List.take_subset 16 _ hc)

theorem C9_identity_deterministic_witness :
    generateUserId "p" = generateUserId "p" ∧
    generateUserId "p" = generateUserId "p" ∧
    (generateUserId "p").length = 16 ∧
    ∀ c ∈ (generateUserId "p").data, isHexDigit c = true :=
  C9_identity_deterministic 1 2 "p:1" "p:2" "p" "1" "2"
    (generateUserId "p") (generateUserId "p") (by decide) (by decide) rfl rfl

/-- C10: verification does not reject for freshness a token whose second
(issue-instant) part is non-empty but does not parse as a number, nor one
whose issue instant lies in the future: the expiry comparison fails to
hold and the token is accepted, resolving to a userId. -/
theorem C10_unparseable_or_future_accepted (now : Int) (decoded pw ts : String)
    (hsplit : jsSplitColon decoded = [pw, ts])
    (hpw : pw ≠ "") (hts : ts ≠ "") :
    (parseIntJS ts = none →
      verifyToken now (.bearer decoded) = .ok (generateUserId pw)) ∧
    (∀ t : Int, parseIntJS ts = some t → now < t →
      verifyToken now (.bearer decoded) = .ok (generateUserId pw)) := by
  constructor
  · intro hp
    have hd : verifyDecoded now decoded = .ok (generateUserId pw) := by
      simp only [verifyDecoded, hsplit, List.getD_cons_zero, List.getD_cons_succ, hp]
      rw [if_neg (by simp [hpw, hts])]
    simp only [verifyToken, hd]
  · intro t hp hfut
    have hd : verifyDecoded now decoded = .ok (generateUserId pw) := by
      simp only [verifyDecoded, hsplit, List.getD_cons_zero, List.getD_cons_succ, hp]
      rw [if_neg (by simp [hpw, hts])]
      by_cases hr : t.natAbs > maxDateMs
      · rw [if_pos hr]
      · rw [if_neg hr,
          if_neg (show ¬now - t > dayMs by simp only [dayMs]; omega)]
    simp only [verifyToken, hd]

theorem C10_unparseable_or_future_accepted_witness :
    verifyToken 0 (.bearer "p:x") = .ok (generateUserId "p") ∧
    verifyToken 0 (.bearer "p:5") = .ok (generateUserId "p") :=
  ⟨(C10_unparseable_or_future_accepted 0 "p:x" "p" "x" (by decide) (by decide)
      (by decide)).1 (by decide),
   (C10_unparseable_or_future_accepted 0 "p:5" "p" "5" (by decide) (by decide)
      (by decide)).2 5 (by decide) (by decide)⟩

end NotesServer
